import Mathlib

/-!
Verification development for the Forkd recipe-journaling service
(`src/model.py`, `src/api_server.py`, `src/server.py`).

Shallow embedding conventions:
- SQLAlchemy rows become Lean structures; a `DB` value holds the row lists.
- `datetime` values become `Nat` timestamps (only their ordering matters).
- Python `None` becomes `Option.none`; a route that would raise an
  unhandled exception (attribute access on `None`, arity errors) returns
  `Option.none` at the outer level.
- SQLAlchemy object equality (`==` / `is` on mapped rows) is equality of
  the row's columns; ids are unique in any well-formed `DB`, so this
  coincides with Python identity on rows of one session.
- `db.session.delete` removes the row with the given primary key;
  relationship lists (`Recipe.edits`, `Recipe.experiments`) are the
  foreign-key filter of the table ordered descending by `commit_date`,
  matching the `order_by=desc(...)` relationship declarations.

`permissions_helper.py` and the `Permission` model are referenced by
`src/api_server.py` but are not part of the given sources; those pieces
are modelled from the spec and flagged `Modelled from the spec:` in their
doc comments.
-/

/-- A user row (`model.py`, class `User`). -/
structure User where
  id : Nat
  email : String
  password : String
  username : String
deriving DecidableEq, Repr

/-- A recipe row (`model.py`, class `Recipe`).
The `is_experiments_public` column is referenced by `api_server.py` and is
listed in the spec's data model; it is absent from the given `model.py`,
so that one column is modelled from the spec (a per-recipe boolean that
gates Experiment visibility). -/
structure Recipe where
  id : Nat
  user_id : Nat
  source_url : Option String
  last_modified : Nat
  forked_from : Option Nat
  is_public : Bool
  is_experiments_public : Bool
deriving DecidableEq, Repr

/-- An experiment row (`model.py`, class `Experiment`). -/
structure Experiment where
  id : Nat
  recipe_id : Nat
  commit_msg : String
  notes : String
  commit_date : Nat
  create_date : Option Nat
  commit_by : Option Nat
deriving DecidableEq, Repr

/-- An edit row (`model.py`, class `Edit`).
The image-URL column is passed by `api_server.py`'s `submit_new_edit` and
`create_new_recipe` and is listed in the spec's Edit data model ("optional
image URL"); it is absent from the given `model.py`, so that one column is
modelled from the spec. -/
structure Edit where
  id : Nat
  recipe_id : Nat
  title : String
  description : String
  ingredients : String
  instructions : String
  img_url : Option String
  commit_date : Nat
  commit_by : Option Nat
deriving DecidableEq, Repr

/-- Modelled from the spec: the `Permission` model class is referenced by
`api_server.py` (`model.Permission.get_by_user_and_recipe`) but is absent
from the given `model.py`.  Per the spec it is a grant row keyed by
(user, recipe), at most one per pair, carrying two independent boolean
capabilities `can_edit` and `can_experiment`. -/
structure Permission where
  user_id : Nat
  recipe_id : Nat
  can_edit : Bool
  can_experiment : Bool
deriving DecidableEq, Repr

/-- The record store: one list of rows per table. -/
structure DB where
  users : List User
  recipes : List Recipe
  edits : List Edit
  experiments : List Experiment
  permissions : List Permission
deriving DecidableEq, Repr

/-- `Recipe.get_by_id` (`model.py`): primary-key lookup. -/
def Recipe.get_by_id (db : DB) (id : Nat) : Option Recipe :=
  db.recipes.find? (fun r => r.id == id)

/-- `Edit.get_by_id` (`model.py`): primary-key lookup. -/
def Edit.get_by_id (db : DB) (id : Nat) : Option Edit :=
  db.edits.find? (fun e => e.id == id)

/-- `Experiment.get_by_id` (`model.py`): primary-key lookup. -/
def Experiment.get_by_id (db : DB) (id : Nat) : Option Experiment :=
  db.experiments.find? (fun x => x.id == id)

/-- Modelled from the spec: `model.Permission.get_by_user_and_recipe`
(absent from the given `model.py`) looks up the at-most-one grant row for
a (user, recipe) pair. -/
def Permission.get_by_user_and_recipe (db : DB) (userId recipeId : Nat) :
    Option Permission :=
  db.permissions.find? (fun p => p.user_id == userId && p.recipe_id == recipeId)

/-- Insert into a list kept in descending key order (used to model the
record store returning rows ordered by `order_by=desc(commit_date)`). -/
def insertDescBy (key : α → Nat) (a : α) : List α → List α
  | [] => [a]
  | b :: t => if key b ≤ key a then a :: b :: t else b :: insertDescBy key a t

/-- Sort a list descending by a `Nat` key (models the ordered range query
the relationship declarations request from the store). -/
def sortDescBy (key : α → Nat) : List α → List α
  | [] => []
  | a :: t => insertDescBy key a (sortDescBy key t)

/-- `Recipe.edits` relationship (`model.py` line 84): the recipe's Edit
rows ordered descending by `commit_date`. -/
def Recipe.editsOf (db : DB) (r : Recipe) : List Edit :=
  sortDescBy Edit.commit_date (db.edits.filter (fun e => e.recipe_id == r.id))

/-- `Recipe.experiments` relationship (`model.py` line 83): the recipe's
Experiment rows ordered descending by `commit_date`. -/
def Recipe.experimentsOf (db : DB) (r : Recipe) : List Experiment :=
  sortDescBy Experiment.commit_date
    (db.experiments.filter (fun x => x.recipe_id == r.id))

/-- `Edit.get_previous` (`model.py` lines 189-191), taking the
relationship list `self.recipe.edits` as `edits_list`:
`None if edits_list[-1] == self else edits_list[edits_list.index(self) + 1]`.
A Python `ValueError`/`IndexError` (edit absent from the list, or the
duplicate-last corner) would raise; on the claims' domain (the edit is a
member of its recipe's strictly ordered list) no exception occurs, and the
out-of-range access is modelled by the total `l[i]?` access. -/
def get_previous (edits_list : List Edit) (self : Edit) : Option Edit :=
  if edits_list.getLast? = some self then none
  else edits_list[edits_list.findIdx (fun e => e == self) + 1]?

/-- `Recipe.update_last_modified` (`model.py` lines 103-104): sets only
the `last_modified` column. -/
def Recipe.update_last_modified (r : Recipe) (modified_date : Nat) : Recipe :=
  { r with last_modified := modified_date }

/-- A timeline entry: the tagged union over Edit and Experiment rows that
`get_timeline` merges (the `htmlclass` discriminant of `model.py`). -/
inductive TimelineItem where
  | editItem : Edit → TimelineItem
  | expItem : Experiment → TimelineItem
deriving DecidableEq, Repr

/-- The `commit_date` of a timeline entry. -/
def TimelineItem.commit_date : TimelineItem → Nat
  | .editItem e => e.commit_date
  | .expItem x => x.commit_date

/-- Modelled from the spec: the merge step of `get_timeline`
(`permissions_helper.py`, not among the given sources).  Spec 4.2 step 3:
"repeatedly take whichever head item has the larger commit_date"; on a tie
the Edit head is taken (the spec leaves the tie-break open but requires it
deterministic). -/
def mergeAux : Nat → List TimelineItem → List TimelineItem → List TimelineItem
  | _, [], ys => ys
  | _, x :: xs, [] => x :: xs
  | 0, x :: xs, y :: ys => x :: xs ++ y :: ys
  | n + 1, x :: xs, y :: ys =>
    if x.commit_date < y.commit_date then
      y :: mergeAux n (x :: xs) ys
    else
      x :: mergeAux n xs (y :: ys)

/-- The merge entry point: the fuel equals the combined length, which the
recursion never exhausts, so the fuel-0 branch of `mergeAux` is dead
code. -/
def mergeByDateDesc (xs ys : List TimelineItem) : List TimelineItem :=
  mergeAux (xs.length + ys.length) xs ys

/-- `getattr(permission, 'can_edit', False)` (`api_server.py` line 252). -/
def getattrCanEdit : Option Permission → Bool
  | some p => p.can_edit
  | none => false

/-- `getattr(permission, 'can_experiment', False)` (`api_server.py` line 226). -/
def getattrCanExperiment : Option Permission → Bool
  | some p => p.can_experiment
  | none => false

/-- The capability triple of the spec's Permission Resolver. -/
structure Capabilities where
  canView : Bool
  canEditContent : Bool
  canAddExperiment : Bool
deriving DecidableEq, Repr

/-- The grant row consulted for an optional viewer identity. -/
def permRowFor (db : DB) (viewerId : Option Nat) (recipeId : Nat) :
    Option Permission :=
  match viewerId with
  | some v => Permission.get_by_user_and_recipe db v recipeId
  | none => none

/-- Modelled from the spec: the Permission Resolver `resolve`
(`permissions_helper.py`, not among the given sources).  Spec 4.1:
owner gets all three capabilities; otherwise the grant row supplies
`canEditContent`/`canAddExperiment`, and `canView` holds iff the recipe is
public or a grant row exists for this viewer. -/
def resolve (db : DB) (viewerId : Option Nat) (r : Recipe) : Capabilities :=
  if viewerId = some r.user_id then
    { canView := true, canEditContent := true, canAddExperiment := true }
  else
    let row := permRowFor db viewerId r.id
    { canView := r.is_public || row.isSome
      canEditContent := getattrCanEdit row
      canAddExperiment := getattrCanExperiment row }

/-- Modelled from the spec: the experiment-visibility gate of spec 4.1
rule 4 — an Experiment item is visible to a non-owner viewer only if
`recipe.is_experiments_public` is true or that viewer holds
`can_experiment` (or `can_edit`, since edit implies full trust) in their
Permission row. -/
def experimentVisible (db : DB) (viewerId : Option Nat) (r : Recipe) : Bool :=
  if viewerId = some r.user_id then true
  else
    match permRowFor db viewerId r.id with
    | some p => r.is_experiments_public || p.can_experiment || p.can_edit
    | none => r.is_experiments_public

/-- Modelled from the spec: `ph.get_timeline` (`permissions_helper.py`,
not among the given sources), with the return shape `read_recipe_timeline`
consumes: Python `None` (no such recipe) becomes `none`; otherwise a
triple of (items or `None` when the viewer cannot view, canExperiment,
canEdit).  Spec 4.2: fetch both descending sequences, drop Experiments the
viewer may not see, merge by larger-head commit_date, attach the
capability flags. -/
def get_timeline (db : DB) (viewerId : Option Nat) (recipeId : Nat) :
    Option (Option (List TimelineItem) × Bool × Bool) :=
  match Recipe.get_by_id db recipeId with
  | none => none
  | some r =>
    let caps := resolve db viewerId r
    if caps.canView then
      let eds := Recipe.editsOf db r
      let exs := if experimentVisible db viewerId r
                 then Recipe.experimentsOf db r else []
      some (some (mergeByDateDesc (eds.map .editItem) (exs.map .expItem)),
            caps.canAddExperiment, caps.canEditContent)
    else
      some (none, caps.canAddExperiment, caps.canEditContent)

/-- Outcome of the timeline route. -/
inductive TimelineResponse where
  | error : Nat → TimelineResponse
  | ok : List TimelineItem → Bool → Bool → TimelineResponse
deriving DecidableEq, Repr

/-- `read_recipe_timeline` (`api_server.py` lines 184-195): a falsy
`get_timeline` result is a 404, a falsy first component (Python `None` or
the empty list) is a 403, otherwise the items with the
`can_experiment`/`can_edit` flags. -/
def read_recipe_timeline (db : DB) (viewerId : Option Nat) (recipeId : Nat) :
    TimelineResponse :=
  match get_timeline db viewerId recipeId with
  | none => .error 404
  | some (items?, canExp, canEdit) =>
    match items? with
    | none => .error 403
    | some items =>
      if items.isEmpty then .error 403 else .ok items canExp canEdit

/-- An HTTP response: status code and body text. -/
structure ApiResponse where
  status : Nat
  body : String
deriving DecidableEq, Repr

/-- `delete_recipe` (`api_server.py` lines 200-209).  A missing recipe
makes `this_recipe.owner` raise on `None` (modelled `none`); a non-owner
actor gets 403 with the store unchanged; the owner's delete removes the
recipe row. -/
def delete_recipe (db : DB) (actorId : Nat) (recipeId : Nat) :
    Option (ApiResponse × DB) :=
  match Recipe.get_by_id db recipeId with
  | none => none
  | some r =>
    if actorId ≠ r.user_id then
      some (⟨403, "Forbidden"⟩, db)
    else
      some (⟨204, "Recipe successfully deleted"⟩,
        { db with recipes := db.recipes.filter (fun x => x.id ≠ r.id) })

/-- `delete_edit` (`api_server.py` lines 286-300).  The handler looks up
the edit (attribute access on a missing edit, or on a dangling
`recipe_id`, raises — modelled `none`), rejects a non-owner with 403, and
otherwise deletes the edit row.  The source carries the comment
"handle if first edit -- CANNOT DELETE" but performs no founding-edit
check. -/
def delete_edit (db : DB) (actorId : Nat) (editId : Nat) :
    Option (ApiResponse × DB) :=
  match Edit.get_by_id db editId with
  | none => none
  | some e =>
    match Recipe.get_by_id db e.recipe_id with
    | none => none
    | some r =>
      if actorId ≠ r.user_id then
        some (⟨403, "Forbidden"⟩, db)
      else
        some (⟨204, "Edit successfully deleted"⟩,
          { db with edits := db.edits.filter (fun x => x.id ≠ e.id) })

/-- `delete_experiment` (`api_server.py` lines 312-325), same shape as
`delete_edit`. -/
def delete_experiment (db : DB) (actorId : Nat) (experimentId : Nat) :
    Option (ApiResponse × DB) :=
  match Experiment.get_by_id db experimentId with
  | none => none
  | some x =>
    match Recipe.get_by_id db x.recipe_id with
    | none => none
    | some r =>
      if actorId ≠ r.user_id then
        some (⟨403, "Forbidden"⟩, db)
      else
        some (⟨204, "Experiment successfully deleted"⟩,
          { db with experiments := db.experiments.filter (fun y => y.id ≠ x.id) })

/-- `submit_new_exp` (`api_server.py` lines 214-235).  A missing recipe
makes `this_recipe.owner` raise (modelled `none`).  The gate is
`getattr(permission, 'can_experiment', False) or this_recipe.owner ==
token_auth.current_user()`; on failure 403 with the store unchanged.  On
success `Experiment.create(this_recipe, commit_msg, notes, now, now,
current_user)` builds a row with `commit_date = now` and
`create_date = now`, and `update_last_modified(now)` touches only the
recipe's `last_modified`.  `newId` stands for the store's autoincrement
key. -/
def submit_new_exp (db : DB) (actorId : Nat) (recipeId : Nat)
    (commit_msg notes : String) (now : Nat) (newId : Nat) :
    Option (ApiResponse × DB) :=
  match Recipe.get_by_id db recipeId with
  | none => none
  | some r =>
    let permission := Permission.get_by_user_and_recipe db actorId recipeId
    if !(getattrCanExperiment permission || (r.user_id == actorId)) then
      some (⟨403, "Forbidden"⟩, db)
    else
      let new_experiment : Experiment :=
        ⟨newId, r.id, commit_msg, notes, now, some now, some actorId⟩
      some (⟨201, "Experiment successfully created"⟩,
        { db with
            experiments := new_experiment :: db.experiments,
            recipes := db.recipes.map (fun x =>
              if x.id == r.id then x.update_last_modified now else x) })

/-- `submit_new_edit` (`api_server.py` lines 240-264).  Same gate with
`can_edit`.  The `Edit.create` call passes the image URL between
`instructions` and `now` — the given `model.py` signature lacks that
column, so the `img_url` slot is the column modelled from the spec.  On
success the new edit carries the submitted fields with
`commit_date = now`, the recipe's `last_modified` is set to `now`, and
the route answers 201 (with the source's literal body text). -/
def submit_new_edit (db : DB) (actorId : Nat) (recipeId : Nat)
    (title description ingredients instructions : String)
    (img_url : Option String) (now : Nat) (newId : Nat) :
    Option (ApiResponse × DB) :=
  match Recipe.get_by_id db recipeId with
  | none => none
  | some r =>
    let permission := Permission.get_by_user_and_recipe db actorId recipeId
    if !(getattrCanEdit permission || (r.user_id == actorId)) then
      some (⟨403, "Forbidden"⟩, db)
    else
      let new_edit : Edit :=
        ⟨newId, r.id, title, description, ingredients, instructions,
         img_url, now, some actorId⟩
      some (⟨201, "Experiment successfully created"⟩,
        { db with
            edits := new_edit :: db.edits,
            recipes := db.recipes.map (fun x =>
              if x.id == r.id then x.update_last_modified now else x) })

/-! ## Helper lemmas -/

/-- In a list whose commit_dates are strictly descending, the linear
search `edits_list.index(self)` finds exactly the position the element
occupies. -/
theorem findIdx_eq_of_pairwise_getElem (l : List Edit) (i : Nat) (self : Edit)
    (hp : l.Pairwise (fun a b => b.commit_date < a.commit_date))
    (hi : l[i]? = some self) :
    l.findIdx (fun e => e == self) = i := by
  induction l generalizing i with
  | nil => simp at hi
  | cons a t ih =>
    rcases List.pairwise_cons.mp hp with ⟨ha, ht⟩
    cases i with
    | zero =>
      have : a = self := by simpa using hi
      subst this
      simp [List.findIdx_cons]
    | succ n =>
      have ht' : t[n]? = some self := by simpa using hi
      have hmem : self ∈ t := by
        rcases List.getElem?_eq_some.mp ht' with ⟨hn, hg⟩
        exact hg ▸ List.getElem_mem hn
      have hlt := ha self hmem
      have hne : (a == self) = false := by
        rw [beq_eq_false_iff_ne]
        intro h
        rw [h] at hlt
        exact lt_irrefl _ hlt
      simp only [List.findIdx_cons, hne, cond_false, Nat.add_left_inj]
      exact ih n ht ht'

/-- C1: for a recipe whose Edit relationship list is strictly descending
by commit_date, `Edit.get_previous` returns `none` exactly on the founding
Edit (the minimum-commit_date Edit, last in the descending list) and, on
any other Edit at position `i`, returns the next element of the descending
order, whose commit_date is the next-smaller one. -/
theorem C1_get_previous_chain (l : List Edit) (i : Nat) (self : Edit)
    (hp : l.Pairwise (fun a b => b.commit_date < a.commit_date))
    (hi : l[i]? = some self) :
    (i + 1 = l.length → get_previous l self = none) ∧
    (i + 1 < l.length →
      get_previous l self = l[i + 1]? ∧
      ∀ e, l[i + 1]? = some e → e.commit_date < self.commit_date) := by
  rcases List.getElem?_eq_some.mp hi with ⟨hilen, hgi⟩
  constructor
  · intro hlast
    have hl : l.getLast? = some self := by
      rw [List.getLast?_eq_getElem?]
      have : l.length - 1 = i := by omega
      rw [this]
      exact hi
    simp [get_previous, hl]
  · intro hlt
    have hl : ¬ l.getLast? = some self := by
      rw [List.getLast?_eq_getElem?]
      intro hcon
      have hj : l.length - 1 < l.length := by omega
      have hij : i < l.length - 1 := by omega
      have hdate := List.pairwise_iff_getElem.mp hp i (l.length - 1) hilen hj hij
      rcases List.getElem?_eq_some.mp hcon with ⟨_, hgj⟩
      rw [hgi, hgj] at hdate
      exact lt_irrefl _ hdate
    have hfind := findIdx_eq_of_pairwise_getElem l i self hp hi
    refine ⟨?_, ?_⟩
    · simp [get_previous, hl, hfind]
    · intro e he
      rcases List.getElem?_eq_some.mp he with ⟨_, hge⟩
      have hdate := List.pairwise_iff_getElem.mp hp i (i + 1) hilen hlt (by omega)
      rw [hgi, hge] at hdate
      exact hdate

/-- Merging against the empty Experiment stream changes nothing. -/
theorem mergeByDateDesc_nil_right (xs : List TimelineItem) :
    mergeByDateDesc xs [] = xs := by
  cases xs <;> simp [mergeByDateDesc, mergeAux]

/-- The fuelled merge holds exactly the members of the two inputs. -/
theorem mem_mergeAux : ∀ (n : Nat) (xs ys : List TimelineItem) (a : TimelineItem),
    xs.length + ys.length ≤ n →
    (a ∈ mergeAux n xs ys ↔ a ∈ xs ∨ a ∈ ys) := by
  intro n
  induction n with
  | zero =>
    intro xs ys a h
    cases xs with
    | nil => simp [mergeAux]
    | cons x xs =>
      cases ys with
      | nil => simp [mergeAux]
      | cons y ys => exfalso; simp at h
  | succ n ih =>
    intro xs ys a h
    cases xs with
    | nil => simp [mergeAux]
    | cons x xs =>
      cases ys with
      | nil => simp [mergeAux]
      | cons y ys =>
        have hlen1 : (x :: xs).length + ys.length ≤ n := by
          simp at h ⊢; omega
        have hlen2 : xs.length + (y :: ys).length ≤ n := by
          simp at h ⊢; omega
        simp only [mergeAux]
        by_cases hc : x.commit_date < y.commit_date
        · rw [if_pos hc, List.mem_cons, ih (x :: xs) ys a hlen1]
          simp [List.mem_cons]
          tauto
        · rw [if_neg hc, List.mem_cons, ih xs (y :: ys) a hlen2]
          simp [List.mem_cons]
          tauto

/-- The merged stream holds exactly the members of the two inputs. -/
theorem mem_mergeByDateDesc : ∀ (xs ys : List TimelineItem) (a : TimelineItem),
    a ∈ mergeByDateDesc xs ys ↔ a ∈ xs ∨ a ∈ ys :=
  fun xs ys a => mem_mergeAux (xs.length + ys.length) xs ys a le_rfl

/-- The fuelled merge of two descending streams is descending. -/
theorem sorted_mergeAux : ∀ (n : Nat) (xs ys : List TimelineItem),
    xs.length + ys.length ≤ n →
    xs.Pairwise (fun a b => b.commit_date ≤ a.commit_date) →
    ys.Pairwise (fun a b => b.commit_date ≤ a.commit_date) →
    (mergeAux n xs ys).Pairwise (fun a b => b.commit_date ≤ a.commit_date) := by
  intro n
  induction n with
  | zero =>
    intro xs ys h hx hy
    cases xs with
    | nil => simpa [mergeAux] using hy
    | cons x xs =>
      cases ys with
      | nil => simpa [mergeAux] using hx
      | cons y ys => exfalso; simp at h
  | succ n ih =>
    intro xs ys h hx hy
    cases xs with
    | nil => simpa [mergeAux] using hy
    | cons x xs =>
      cases ys with
      | nil => simpa [mergeAux] using hx
      | cons y ys =>
        rcases List.pairwise_cons.mp hx with ⟨hxall, hx'⟩
        rcases List.pairwise_cons.mp hy with ⟨hyall, hy'⟩
        have hlen1 : (x :: xs).length + ys.length ≤ n := by
          simp at h ⊢; omega
        have hlen2 : xs.length + (y :: ys).length ≤ n := by
          simp at h ⊢; omega
        simp only [mergeAux]
        by_cases hc : x.commit_date < y.commit_date
        · rw [if_pos hc]
          refine List.pairwise_cons.mpr ⟨?_, ih (x :: xs) ys hlen1 hx hy'⟩
          intro b hb
          rcases (mem_mergeAux n (x :: xs) ys b hlen1).mp hb with hbx | hby
          · rcases List.mem_cons.mp hbx with rfl | hbx'
            · exact le_of_lt hc
            · exact le_trans (hxall b hbx') (le_of_lt hc)
          · exact hyall b hby
        · rw [if_neg hc]
          push_neg at hc
          refine List.pairwise_cons.mpr ⟨?_, ih xs (y :: ys) hlen2 hx' hy⟩
          intro b hb
          rcases (mem_mergeAux n xs (y :: ys) b hlen2).mp hb with hbx | hby
          · exact hxall b hbx
          · rcases List.mem_cons.mp hby with rfl | hby'
            · exact hc
            · exact le_trans (hyall b hby') hc

/-- The head-by-larger-commit_date merge of two descending streams is
descending. -/
theorem sorted_mergeByDateDesc : ∀ (xs ys : List TimelineItem),
    xs.Pairwise (fun a b => b.commit_date ≤ a.commit_date) →
    ys.Pairwise (fun a b => b.commit_date ≤ a.commit_date) →
    (mergeByDateDesc xs ys).Pairwise (fun a b => b.commit_date ≤ a.commit_date) :=
  fun xs ys hx hy => sorted_mergeAux (xs.length + ys.length) xs ys le_rfl hx hy

/-- The fuelled merge is a permutation of the concatenation. -/
theorem perm_mergeAux : ∀ (n : Nat) (xs ys : List TimelineItem),
    xs.length + ys.length ≤ n → (mergeAux n xs ys).Perm (xs ++ ys) := by
  intro n
  induction n with
  | zero =>
    intro xs ys h
    cases xs with
    | nil => simp [mergeAux]
    | cons x xs =>
      cases ys with
      | nil => simp [mergeAux]
      | cons y ys => exfalso; simp at h
  | succ n ih =>
    intro xs ys h
    cases xs with
    | nil => simp [mergeAux]
    | cons x xs =>
      cases ys with
      | nil => simp [mergeAux]
      | cons y ys =>
        have hlen1 : (x :: xs).length + ys.length ≤ n := by
          simp at h ⊢; omega
        have hlen2 : xs.length + (y :: ys).length ≤ n := by
          simp at h ⊢; omega
        simp only [mergeAux]
        by_cases hc : x.commit_date < y.commit_date
        · rw [if_pos hc]
          exact (List.Perm.cons y (ih (x :: xs) ys hlen1)).trans
            List.perm_middle.symm
        · rw [if_neg hc]
          exact List.Perm.cons x (ih xs (y :: ys) hlen2)

/-- The merge is a permutation of the concatenation: no item is dropped,
duplicated, or re-sorted in from nowhere. -/
theorem perm_mergeByDateDesc : ∀ (xs ys : List TimelineItem),
    (mergeByDateDesc xs ys).Perm (xs ++ ys) :=
  fun xs ys => perm_mergeAux (xs.length + ys.length) xs ys le_rfl

/-! ## Concrete fixtures -/

/-- Owner of the sample recipe. -/
def ownerU : User := ⟨10, "owner@forkd.test", "pw", "owner"⟩

/-- Sample recipe, public with public experiments. -/
def rPub : Recipe := ⟨1, 10, none, 5, none, true, true⟩

/-- Edit snapshots with commit_dates 5, 3, 1. -/
def e5 : Edit := ⟨1, 1, "v3", "d", "i", "s", none, 5, some 10⟩

/-- Edit snapshot with commit_date 3. -/
def e3 : Edit := ⟨2, 1, "v2", "d", "i", "s", none, 3, some 10⟩

/-- Founding edit, commit_date 1. -/
def e1 : Edit := ⟨3, 1, "v1", "d", "i", "s", none, 1, some 10⟩

/-- Experiment with commit_date 4. -/
def x4 : Experiment := ⟨1, 1, "try oat milk", "n", 4, none, some 10⟩

/-- Experiment with commit_date 2. -/
def x2 : Experiment := ⟨2, 1, "try less sugar", "n", 2, none, some 10⟩

/-- The sample store for the timeline claims. -/
def dbPub : DB := ⟨[ownerU], [rPub], [e5, e3, e1], [x4, x2], []⟩

/-- C1 witness: on the concrete descending list [e5, e3, e1], the edit at
position 1 is not founding, its predecessor snapshot is e1 (commit_date
1 < 3), and position 2 is the founding edit with `get_previous` none. -/
theorem C1_get_previous_chain_witness :
    (get_previous [e5, e3, e1] e3 = [e5, e3, e1][2]? ∧
      ∀ e, [e5, e3, e1][2]? = some e → e.commit_date < e3.commit_date) ∧
    get_previous [e5, e3, e1] e1 = none :=
  ⟨(C1_get_previous_chain [e5, e3, e1] 1 e3 (by decide) (by decide)).2
      (by decide),
   (C1_get_previous_chain [e5, e3, e1] 2 e1 (by decide) (by decide)).1
      (by decide)⟩

/-- C2: for any recipe a fully-visible viewer fetches, `get_timeline`'s
items are exactly the two descending relationship sequences merged by
repeatedly taking the head with the larger commit_date; that merge keeps a
descending order and is a permutation of the concatenation (no
re-sorting); and on Edits with commit_dates [5,3,1] and Experiments with
commit_dates [4,2] under full visibility the items come out ordered
[5,4,3,2,1] exactly. -/
theorem C2_timeline_merge :
    (∀ (db : DB) (viewerId : Option Nat) (recipeId : Nat) (r : Recipe),
      Recipe.get_by_id db recipeId = some r →
      (resolve db viewerId r).canView = true →
      experimentVisible db viewerId r = true →
      get_timeline db viewerId recipeId =
        some (some (mergeByDateDesc
            ((Recipe.editsOf db r).map TimelineItem.editItem)
            ((Recipe.experimentsOf db r).map TimelineItem.expItem)),
          (resolve db viewerId r).canAddExperiment,
          (resolve db viewerId r).canEditContent)) ∧
    (∀ xs ys : List TimelineItem,
      xs.Pairwise (fun a b => b.commit_date ≤ a.commit_date) →
      ys.Pairwise (fun a b => b.commit_date ≤ a.commit_date) →
      (mergeByDateDesc xs ys).Pairwise
          (fun a b => b.commit_date ≤ a.commit_date) ∧
      (mergeByDateDesc xs ys).Perm (xs ++ ys)) ∧
    get_timeline dbPub (some 10) 1 =
      some (some [TimelineItem.editItem e5, TimelineItem.expItem x4,
        TimelineItem.editItem e3, TimelineItem.expItem x2,
        TimelineItem.editItem e1], true, true) := by
  refine ⟨?_,
    fun xs ys hx hy =>
      ⟨sorted_mergeByDateDesc xs ys hx hy, perm_mergeByDateDesc xs ys⟩,
    by decide⟩
  intro db viewerId recipeId r hr hview hexp
  simp [get_timeline, hr, hview, hexp]

/-- C2 witness: the general timeline equation at the concrete store with
the owner viewing, and the merge facts at concrete one-element streams. -/
theorem C2_timeline_merge_witness :
    get_timeline dbPub (some 10) 1 =
      some (some (mergeByDateDesc
          ((Recipe.editsOf dbPub rPub).map TimelineItem.editItem)
          ((Recipe.experimentsOf dbPub rPub).map TimelineItem.expItem)),
        (resolve dbPub (some 10) rPub).canAddExperiment,
        (resolve dbPub (some 10) rPub).canEditContent) ∧
    (mergeByDateDesc [TimelineItem.editItem e5] [TimelineItem.expItem x4]).Perm
      ([TimelineItem.editItem e5] ++ [TimelineItem.expItem x4]) :=
  ⟨C2_timeline_merge.1 dbPub (some 10) 1 rPub (by decide) (by decide)
      (by decide),
   (C2_timeline_merge.2.1 [TimelineItem.editItem e5] [TimelineItem.expItem x4]
      (by decide) (by decide)).2⟩

/-- C3: evaluation of the code at the failing input.  Edit e1 (id 3) is
the minimum-commit_date Edit of recipe 1 — the founding edit — yet the
owner's delete-edit request is not rejected: it answers 204 and removes
the founding edit from the store.  The handler's own comment
("handle if first edit -- CANNOT DELETE") states the intended rule the
code does not enforce. -/
theorem C3_founding_edit_deletion_unenforced :
    dbPub.edits.all (fun e => e1.commit_date ≤ e.commit_date) = true ∧
    e1 ∈ dbPub.edits ∧ e1.recipe_id = rPub.id ∧
    delete_edit dbPub 10 3 =
      some (⟨204, "Edit successfully deleted"⟩,
        { dbPub with edits := [e5, e3] }) := by
  decide

/-- C4: an authenticated actor who owns the recipe or holds can_edit in
their Permission row succeeds in creating an edit: the route answers 201
and the store gains a new Edit carrying the submitted title, description,
ingredients, instructions and optional image URL, with commit_date equal
to the submission time `now`; the recipe's last_modified is set to
`now`. -/
theorem C4_submit_new_edit_appends (db : DB) (actorId recipeId : Nat)
    (r : Recipe) (title description ingredients instructions : String)
    (img_url : Option String) (now newId : Nat)
    (hr : Recipe.get_by_id db recipeId = some r)
    (hauth : r.user_id = actorId ∨
      getattrCanEdit (Permission.get_by_user_and_recipe db actorId recipeId)
        = true) :
    submit_new_edit db actorId recipeId title description ingredients
        instructions img_url now newId =
      some (⟨201, "Experiment successfully created"⟩,
        { db with
            edits := ⟨newId, r.id, title, description, ingredients,
              instructions, img_url, now, some actorId⟩ :: db.edits,
            recipes := db.recipes.map (fun x =>
              if x.id == r.id then x.update_last_modified now else x) }) := by
  have hgate : (getattrCanEdit
      (Permission.get_by_user_and_recipe db actorId recipeId)
      || (r.user_id == actorId)) = true := by
    rcases hauth with h | h
    · simp [h]
    · simp [h]
  simp [submit_new_edit, hr, hgate]

/-- C4 witness: the owner of the sample recipe submits an edit. -/
theorem C4_submit_new_edit_appends_witness :
    submit_new_edit dbPub 10 1 "t" "d" "i" "s" (some "u") 7 4 =
      some (⟨201, "Experiment successfully created"⟩,
        { dbPub with
            edits := ⟨4, rPub.id, "t", "d", "i", "s", some "u", 7, some 10⟩
              :: dbPub.edits,
            recipes := dbPub.recipes.map (fun x =>
              if x.id == rPub.id then x.update_last_modified 7 else x) }) :=
  C4_submit_new_edit_appends dbPub 10 1 rPub "t" "d" "i" "s" (some "u") 7 4
    (by decide) (Or.inl (by decide))

/-- A collaborator user. -/
def editorU : User := ⟨20, "editor@forkd.test", "pw", "editor"⟩

/-- Recipe whose experiments are private (`is_experiments_public` false). -/
def rExpPriv : Recipe := ⟨2, 10, none, 5, none, true, false⟩

/-- The only edit of `rExpPriv`, commit_date 1. -/
def eP : Edit := ⟨5, 2, "v1", "d", "i", "s", none, 1, some 10⟩

/-- The only experiment of `rExpPriv`, commit_date 2. -/
def xP : Experiment := ⟨3, 2, "secret tweak", "n", 2, none, some 10⟩

/-- Grant row: user 20 may edit recipe 2 but not experiment on it. -/
def permEditOnly : Permission := ⟨20, 2, true, false⟩

/-- Store for the experiment-visibility claims. -/
def db5 : DB := ⟨[ownerU, editorU], [rExpPriv], [eP], [xP], [permEditOnly]⟩

/-- C5 counterexample: viewer 20 is not the owner and holds no
can_experiment grant (their row is can_edit=true, can_experiment=false)
on a recipe with is_experiments_public=false, yet `get_timeline` returns
the Experiment item — spec 4.1 rule 4's can_edit clause defeats the claim
as stated. -/
theorem C5_counterexample :
    Permission.get_by_user_and_recipe db5 20 2 = some permEditOnly ∧
    permEditOnly.can_experiment = false ∧
    rExpPriv.is_experiments_public = false ∧
    (20 : Nat) ≠ rExpPriv.user_id ∧
    get_timeline db5 (some 20) 2 =
      some (some [TimelineItem.expItem xP, TimelineItem.editItem eP],
        false, true) := by
  decide

/-- C5 (amended): for a recipe with is_experiments_public=false and a
viewer who is not the owner and holds neither can_experiment nor can_edit
in a Permission row, `get_timeline` (when the viewer can view at all)
returns exactly the Edit items in their descending order — every
Experiment item is removed and no Edit is ever filtered. -/
theorem C5_experiments_filtered (db : DB) (viewerId recipeId : Nat)
    (r : Recipe)
    (hr : Recipe.get_by_id db recipeId = some r)
    (hown : viewerId ≠ r.user_id)
    (hpub : r.is_experiments_public = false)
    (hexp : getattrCanExperiment (permRowFor db (some viewerId) r.id) = false)
    (hedit : getattrCanEdit (permRowFor db (some viewerId) r.id) = false)
    (hview : (resolve db (some viewerId) r).canView = true) :
    get_timeline db (some viewerId) recipeId =
      some (some ((Recipe.editsOf db r).map TimelineItem.editItem),
        false, false) := by
  have hown' : ¬ ((some viewerId : Option Nat) = some r.user_id) := by
    simpa using hown
  have hev : experimentVisible db (some viewerId) r = false := by
    unfold experimentVisible
    rw [if_neg hown']
    cases hrow : permRowFor db (some viewerId) r.id with
    | none => simpa using hpub
    | some p =>
      have h1 : p.can_experiment = false := by
        have h := hexp
        rw [hrow] at h
        simpa [getattrCanExperiment] using h
      have h2 : p.can_edit = false := by
        have h := hedit
        rw [hrow] at h
        simpa [getattrCanEdit] using h
      simp [hpub, h1, h2]
  have hAdd : (resolve db (some viewerId) r).canAddExperiment = false := by
    simp [resolve, hown', hexp]
  have hEdit : (resolve db (some viewerId) r).canEditContent = false := by
    simp [resolve, hown', hedit]
  simp [get_timeline, hr, hview, hev, hAdd, hEdit, mergeByDateDesc_nil_right]

/-- C5 witness: user 30 — no grant row at all — viewing the public recipe
with private experiments sees only its Edit item. -/
theorem C5_experiments_filtered_witness :
    get_timeline db5 (some 30) 2 =
      some (some ((Recipe.editsOf db5 rExpPriv).map TimelineItem.editItem),
        false, false) :=
  C5_experiments_filtered db5 30 2 rExpPriv (by decide) (by decide)
    (by decide) (by decide) (by decide) (by decide)

/-- C6: a missing recipe id answers 404 (NotFound); an existing recipe
with is_public=false viewed by a non-owner holding no Permission row
answers 403 (Forbidden); and the two outcomes are distinct. -/
theorem C6_notfound_vs_forbidden (db : DB) (viewerId : Option Nat)
    (recipeId : Nat) :
    (Recipe.get_by_id db recipeId = none →
      read_recipe_timeline db viewerId recipeId = TimelineResponse.error 404) ∧
    (∀ r, Recipe.get_by_id db recipeId = some r → r.is_public = false →
      viewerId ≠ some r.user_id →
      permRowFor db viewerId r.id = none →
      read_recipe_timeline db viewerId recipeId = TimelineResponse.error 403) ∧
    TimelineResponse.error 403 ≠ TimelineResponse.error 404 := by
  refine ⟨?_, ?_, by decide⟩
  · intro h
    simp [read_recipe_timeline, get_timeline, h]
  · intro r hr hpub hown hrow
    have hcv : (resolve db viewerId r).canView = false := by
      simp [resolve, hown, hpub, hrow]
    simp [read_recipe_timeline, get_timeline, hr, hcv]

/-- Private recipe (both flags false) with its founding edit. -/
def rPriv : Recipe := ⟨3, 10, none, 5, none, false, false⟩

/-- Founding edit of the private recipe. -/
def ePriv : Edit := ⟨6, 3, "v1", "d", "i", "s", none, 1, some 10⟩

/-- Store with one private recipe and no grant rows. -/
def db6 : DB := ⟨[ownerU, editorU], [rPriv], [ePriv], [], []⟩

/-- C6 witness: a missing id gives 404; the private recipe viewed by the
ungranted user 20 gives 403. -/
theorem C6_notfound_vs_forbidden_witness :
    read_recipe_timeline db6 (some 20) 99 = TimelineResponse.error 404 ∧
    read_recipe_timeline db6 (some 20) 3 = TimelineResponse.error 403 :=
  ⟨(C6_notfound_vs_forbidden db6 (some 20) 99).1 (by decide),
   (C6_notfound_vs_forbidden db6 (some 20) 3).2.1 rPriv (by decide)
     (by decide) (by decide) (by decide)⟩

/-- C7: a non-owner whose grant row has can_edit=true and
can_experiment=false passes the create-edit gate (201, new edit stored)
while the create-experiment gate rejects them with 403 and an unchanged
store — the two capabilities are consulted independently. -/
theorem C7_capability_independence (db : DB) (actorId recipeId : Nat)
    (r : Recipe) (p : Permission)
    (hr : Recipe.get_by_id db recipeId = some r)
    (hown : actorId ≠ r.user_id)
    (hp : Permission.get_by_user_and_recipe db actorId recipeId = some p)
    (hedit : p.can_edit = true) (hexp : p.can_experiment = false)
    (title description ingredients instructions commit_msg notes : String)
    (img_url : Option String) (now newId : Nat) :
    submit_new_edit db actorId recipeId title description ingredients
        instructions img_url now newId =
      some (⟨201, "Experiment successfully created"⟩,
        { db with
            edits := ⟨newId, r.id, title, description, ingredients,
              instructions, img_url, now, some actorId⟩ :: db.edits,
            recipes := db.recipes.map (fun x =>
              if x.id == r.id then x.update_last_modified now else x) }) ∧
    submit_new_exp db actorId recipeId commit_msg notes now newId =
      some (⟨403, "Forbidden"⟩, db) := by
  have hne : (r.user_id == actorId) = false := by
    rw [beq_eq_false_iff_ne]
    exact fun h => hown h.symm
  constructor
  · have hgate : (getattrCanEdit
        (Permission.get_by_user_and_recipe db actorId recipeId)
        || (r.user_id == actorId)) = true := by
      simp [hp, getattrCanEdit, hedit]
    simp [submit_new_edit, hr, hgate]
  · have hgate : (getattrCanExperiment
        (Permission.get_by_user_and_recipe db actorId recipeId)
        || (r.user_id == actorId)) = false := by
      simp [hp, getattrCanExperiment, hexp, hne]
    simp [submit_new_exp, hr, hgate]

/-- C7 witness: user 20 (can_edit only) on recipe 2 creates an edit but
is refused an experiment. -/
theorem C7_capability_independence_witness :
    submit_new_edit db5 20 2 "t" "d" "i" "s" none 9 7 =
      some (⟨201, "Experiment successfully created"⟩,
        { db5 with
            edits := ⟨7, rExpPriv.id, "t", "d", "i", "s", none, 9, some 20⟩
              :: db5.edits,
            recipes := db5.recipes.map (fun x =>
              if x.id == rExpPriv.id then x.update_last_modified 9 else x) }) ∧
    submit_new_exp db5 20 2 "m" "n" 9 7 = some (⟨403, "Forbidden"⟩, db5) :=
  C7_capability_independence db5 20 2 rExpPriv permEditOnly (by decide)
    (by decide) (by decide) (by decide) (by decide)
    "t" "d" "i" "s" "m" "n" none 9 7

/-- C8: the owner of a recipe resolves to all three capabilities true,
whatever the public flags and grant rows are, and in particular passes
both the create-edit and the create-experiment gates. -/
theorem C8_owner_full_capabilities (db : DB) (recipeId : Nat) (r : Recipe)
    (hr : Recipe.get_by_id db recipeId = some r)
    (title description ingredients instructions commit_msg notes : String)
    (img_url : Option String) (now newId : Nat) :
    resolve db (some r.user_id) r =
      { canView := true, canEditContent := true, canAddExperiment := true } ∧
    (∃ db', submit_new_edit db r.user_id recipeId title description
        ingredients instructions img_url now newId =
      some (⟨201, "Experiment successfully created"⟩, db')) ∧
    (∃ db', submit_new_exp db r.user_id recipeId commit_msg notes now newId =
      some (⟨201, "Experiment successfully created"⟩, db')) := by
  refine ⟨by simp [resolve], ?_, ?_⟩
  · refine ⟨{ db with
      edits := ⟨newId, r.id, title, description, ingredients, instructions,
        img_url, now, some r.user_id⟩ :: db.edits,
      recipes := db.recipes.map (fun x =>
        if x.id == r.id then x.update_last_modified now else x) }, ?_⟩
    simp [submit_new_edit, hr]
  · refine ⟨{ db with
      experiments := ⟨newId, r.id, commit_msg, notes, now, some now,
        some r.user_id⟩ :: db.experiments,
      recipes := db.recipes.map (fun x =>
        if x.id == r.id then x.update_last_modified now else x) }, ?_⟩
    simp [submit_new_exp, hr]

/-- C8 witness: the owner of the private recipe — no grant rows exist at
all — has full capabilities and both creation routes succeed. -/
theorem C8_owner_full_capabilities_witness :
    resolve db6 (some rPriv.user_id) rPriv =
      { canView := true, canEditContent := true, canAddExperiment := true } ∧
    (∃ db', submit_new_edit db6 rPriv.user_id 3 "t" "d" "i" "s" none 9 8 =
      some (⟨201, "Experiment successfully created"⟩, db')) ∧
    (∃ db', submit_new_exp db6 rPriv.user_id 3 "m" "n" 9 8 =
      some (⟨201, "Experiment successfully created"⟩, db')) :=
  C8_owner_full_capabilities db6 3 rPriv (by decide)
    "t" "d" "i" "s" "m" "n" none 9 8

/-- C9: whatever the grant rows say, an actor whose id differs from the
target recipe's owner id gets 403 from delete-recipe, delete-edit and
delete-experiment, and each leaves the store unchanged. -/
theorem C9_deletes_owner_only (db : DB) (actorId : Nat) :
    (∀ recipeId r, Recipe.get_by_id db recipeId = some r →
      actorId ≠ r.user_id →
      delete_recipe db actorId recipeId = some (⟨403, "Forbidden"⟩, db)) ∧
    (∀ editId e r, Edit.get_by_id db editId = some e →
      Recipe.get_by_id db e.recipe_id = some r → actorId ≠ r.user_id →
      delete_edit db actorId editId = some (⟨403, "Forbidden"⟩, db)) ∧
    (∀ expId x r, Experiment.get_by_id db expId = some x →
      Recipe.get_by_id db x.recipe_id = some r → actorId ≠ r.user_id →
      delete_experiment db actorId expId = some (⟨403, "Forbidden"⟩, db)) := by
  refine ⟨?_, ?_, ?_⟩
  · intro recipeId r hr hne
    simp [delete_recipe, hr, hne]
  · intro editId e r he hr hne
    simp [delete_edit, he, hr, hne]
  · intro expId x r hx hr hne
    simp [delete_experiment, hx, hr, hne]

/-- C9 witness: user 20 holds the can_edit grant on recipe 2 of `db5`,
yet all three delete routes refuse with 403 and change nothing. -/
theorem C9_deletes_owner_only_witness :
    delete_recipe db5 20 2 = some (⟨403, "Forbidden"⟩, db5) ∧
    delete_edit db5 20 5 = some (⟨403, "Forbidden"⟩, db5) ∧
    delete_experiment db5 20 3 = some (⟨403, "Forbidden"⟩, db5) :=
  ⟨(C9_deletes_owner_only db5 20).1 2 rExpPriv (by decide) (by decide),
   (C9_deletes_owner_only db5 20).2.1 5 eP rExpPriv (by decide) (by decide)
     (by decide),
   (C9_deletes_owner_only db5 20).2.2 3 xP rExpPriv (by decide) (by decide)
     (by decide)⟩

/-- C10: a create-experiment request that passes the gate stores a new
Experiment whose commit_date is the submission time `now` and whose
create_date equals that commit_date, sets the parent recipe's
last_modified to `now`, and — since `update_last_modified` rewrites only
that column — changes no other Recipe field and no other table. -/
theorem C10_experiment_frame (db : DB) (actorId recipeId : Nat) (r : Recipe)
    (commit_msg notes : String) (now newId : Nat)
    (hr : Recipe.get_by_id db recipeId = some r)
    (hauth : r.user_id = actorId ∨
      getattrCanExperiment
        (Permission.get_by_user_and_recipe db actorId recipeId) = true) :
    (∃ x : Experiment,
      submit_new_exp db actorId recipeId commit_msg notes now newId =
        some (⟨201, "Experiment successfully created"⟩,
          { db with
              experiments := x :: db.experiments,
              recipes := db.recipes.map (fun y =>
                if y.id == r.id then y.update_last_modified now else y) }) ∧
      x.commit_date = now ∧ x.create_date = some x.commit_date) ∧
    (∀ y : Recipe,
      (y.update_last_modified now).last_modified = now ∧
      (y.update_last_modified now).id = y.id ∧
      (y.update_last_modified now).user_id = y.user_id ∧
      (y.update_last_modified now).is_public = y.is_public ∧
      (y.update_last_modified now).is_experiments_public
        = y.is_experiments_public ∧
      (y.update_last_modified now).source_url = y.source_url ∧
      (y.update_last_modified now).forked_from = y.forked_from) := by
  have hgate : (getattrCanExperiment
      (Permission.get_by_user_and_recipe db actorId recipeId)
      || (r.user_id == actorId)) = true := by
    rcases hauth with h | h
    · simp [h]
    · simp [h]
  refine ⟨⟨⟨newId, r.id, commit_msg, notes, now, some now, some actorId⟩,
    ?_, rfl, rfl⟩, ?_⟩
  · simp [submit_new_exp, hr, hgate]
  · intro y
    simp [Recipe.update_last_modified]

/-- C10 witness: the owner logs an experiment on the sample recipe at
time 9. -/
theorem C10_experiment_frame_witness :
    (∃ x : Experiment,
      submit_new_exp dbPub 10 1 "m" "n" 9 9 =
        some (⟨201, "Experiment successfully created"⟩,
          { dbPub with
              experiments := x :: dbPub.experiments,
              recipes := dbPub.recipes.map (fun y =>
                if y.id == rPub.id then y.update_last_modified 9 else y) }) ∧
      x.commit_date = 9 ∧ x.create_date = some x.commit_date) ∧
    (∀ y : Recipe,
      (y.update_last_modified 9).last_modified = 9 ∧
      (y.update_last_modified 9).id = y.id ∧
      (y.update_last_modified 9).user_id = y.user_id ∧
      (y.update_last_modified 9).is_public = y.is_public ∧
      (y.update_last_modified 9).is_experiments_public
        = y.is_experiments_public ∧
      (y.update_last_modified 9).source_url = y.source_url ∧
      (y.update_last_modified 9).forked_from = y.forked_from) :=
  C10_experiment_frame dbPub 10 1 rPub "m" "n" 9 9 (by decide)
    (Or.inl (by decide))
